import Mathlib

/-!
Shallow embedding of the Sailor RAG backend (Python) and proofs about it.

The embedding follows the source files under `backend/app`:
* `core/embedding_client.py`          — order-preserving embedding HTTP client
* `features/documents/application/`   — upload / process / chunk / embed / upsert use cases
* `features/documents/infrastructure/embedding_repository_qdrant.py`
* `features/chat/infrastructure/retriever_qdrant.py`
* `core/config.py`, `domain/value_objects.py`, `domain/entities.py`

Python lists become Lean `List`s, floats become `ℚ`, dicts with fixed keys become
structures, exceptions become `Except`/sum results, and `await`ed collaborator
calls become function parameters (the use cases receive their collaborators by
dependency injection in the source as well).
-/

namespace Sailor

/-! ## Basic data model (`domain/entities.py`) -/

/-- `DocumentChunk` from `domain/entities.py`.  The free-form `metadata` dict is
modelled by its only structured key used in the pipeline, `metadata["type"]`,
kept as the field `mtype`. -/
structure DocumentChunk where
  id : String := ""
  course_id : String := ""
  document_id : String := ""
  content : String := ""
  chunk_index : Nat := 0
  page_number : Nat := 0
  token_count : Nat := 0
  mtype : String := ""
deriving DecidableEq, Repr

/-- Sparse vector as in `core/embedding_client.py` (`SparseVector`): parallel
index/value lists. -/
structure SparseVec where
  indices : List Nat := []
  values : List ℚ := []
deriving DecidableEq, Repr

/-! ## Batching helper

`embed_document.py` slices `texts[i:i+B]` for `i in range(0, len(texts), B)`;
`upload_document.py` slices the page list the same way (`pages_per_batch`).
`toBatches B l` produces exactly those consecutive slices (for `B ≥ 1`;
Python raises on step 0, and the defaults are 32 and 6). -/
def toBatchesAux (B : Nat) : Nat → List α → List (List α)
  | 0, _ => []
  | _, [] => []
  | fuel + 1, a :: l => (a :: l.take (B - 1)) :: toBatchesAux B fuel (l.drop (B - 1))

/-- Entry point: one fuel unit per element is enough, since every step
consumes at least the head element. -/
def toBatches (B : Nat) (l : List α) : List (List α) :=
  toBatchesAux B l.length l

theorem toBatchesAux_flatten (B : Nat) :
    ∀ (fuel : Nat) (l : List α), l.length ≤ fuel →
      (toBatchesAux B fuel l).flatten = l := by
  intro fuel
  induction fuel with
  | zero =>
    intro l hl
    have hnil : l = [] := List.eq_nil_of_length_eq_zero (Nat.le_zero.mp hl)
    rw [hnil]
    rfl
  | succ fuel ih =>
    intro l hl
    cases l with
    | nil => rfl
    | cons a l =>
      show ((a :: l.take (B - 1)) :: toBatchesAux B fuel (l.drop (B - 1))).flatten
          = a :: l
      rw [List.flatten_cons,
        ih (l.drop (B - 1)) (by simp only [List.length_drop]; simp at hl; omega)]
      simp only [List.cons_append, List.take_append_drop]

theorem toBatches_flatten (B : Nat) (l : List α) : (toBatches B l).flatten = l :=
  toBatchesAux_flatten B l.length l (Nat.le_refl _)

/-! ## Dual embedding generator

### `core/embedding_client.py`

`get_dense_embeddings` / `get_sparse_embeddings` have the same shape: tag each
text with its index (`indexed_texts = [{"index": i, "text": t}]`), POST the
tagged list, receive `(index, embedding)` pairs in arbitrary order, sort them
by index (`embeddings_with_index.sort(key=lambda x: x[0])`) and strip the
index.  We embed that shape once, generically in the embedding type `β`;
the backend HTTP call is the parameter `backend`. -/

/-- Python's stable `list.sort(key=lambda x: x[0])` on index-tagged items. -/
def pySortByIndex (l : List (Nat × β)) : List (Nat × β) :=
  List.insertionSort (fun a b => a.1 ≤ b.1) l

/-- `EmbeddingClient.get_dense_embeddings` / `get_sparse_embeddings`
(`core/embedding_client.py`, lines 58–99): tag with index, call the backend,
re-sort the response by index, strip the indices. -/
def EmbeddingClient.getEmbeddings (backend : List (Nat × String) → List (Nat × β))
    (texts : List String) : List β :=
  let indexed := texts.enum
  let resp := backend indexed
  (pySortByIndex resp).map Prod.snd

/-- `EmbedDocument._generate_dense_embeddings` / `_generate_sparse_embeddings`
(`embed_document.py`): take the chunks' contents, slice them into batches of
`settings.embedding_request_batch_size` and concatenate the per-batch client
results in order. -/
def EmbedDocument.generate (backend : List (Nat × String) → List (Nat × β))
    (B : Nat) (chunks : List DocumentChunk) : List β :=
  let texts := chunks.map (·.content)
  (toBatches B texts).flatMap (fun batch => EmbeddingClient.getEmbeddings backend batch)

/-- A backend behaving per the collaborator contract (§6 of the spec, and what
the services under `services/…-embedding/app.py` implement): it computes the
embedding `f t` of every tagged text and may return the items in any order. -/
def BackendComputes (backend : List (Nat × String) → List (Nat × β))
    (f : String → β) : Prop :=
  ∀ l : List (Nat × String), List.Perm (backend l) (l.map (fun p => (p.1, f p.2)))

/-! Sorting facts used to prove order restoration. -/

theorem enumTagged_pairwise_lt (f : String → β) (texts : List String) :
    ((texts.enum.map (fun p => (p.1, f p.2))).Pairwise
      (fun a b : Nat × β => a.1 < b.1)) := by
  rw [List.pairwise_map]
  have h := List.pairwise_lt_range texts.length
  have henum : texts.enum.map Prod.fst = List.range texts.length :=
    List.enum_map_fst texts
  have : (texts.enum.map Prod.fst).Pairwise (· < ·) := by rw [henum]; exact h
  rw [List.pairwise_map] at this
  exact this.imp (fun hab => hab)

theorem pySortByIndex_of_perm_enumTagged (f : String → β) (texts : List String)
    (resp : List (Nat × β))
    (hperm : List.Perm resp (texts.enum.map (fun p => (p.1, f p.2)))) :
    pySortByIndex resp = texts.enum.map (fun p => (p.1, f p.2)) := by
  classical
  set canon := texts.enum.map (fun p => (p.1, f p.2)) with hc
  have hsortperm : List.Perm (pySortByIndex resp) canon :=
    (List.perm_insertionSort _ resp).trans hperm
  -- the sorted response is ≤-sorted on the index
  have hsorted : (pySortByIndex resp).Sorted (fun a b : Nat × β => a.1 ≤ b.1) := by
    haveI : IsTotal (Nat × β) (fun a b => a.1 ≤ b.1) := ⟨fun a b => Nat.le_total a.1 b.1⟩
    haveI : IsTrans (Nat × β) (fun a b => a.1 ≤ b.1) :=
      ⟨fun _ _ _ hab hbc => Nat.le_trans hab hbc⟩
    exact List.sorted_insertionSort _ resp
  -- its indices are pairwise distinct, because the canonical list's are
  have hnodup : ((pySortByIndex resp).map Prod.fst).Nodup := by
    have hcanonfst : canon.map Prod.fst = List.range texts.length := by
      rw [hc, List.map_map]
      have : (Prod.fst ∘ fun p : Nat × String => (p.1, f p.2)) = Prod.fst := rfl
      rw [this, List.enum_map_fst]
    have : (canon.map Prod.fst).Nodup := by rw [hcanonfst]; exact List.nodup_range _
    exact (hsortperm.map Prod.fst).nodup_iff.mpr this
  have hne : (pySortByIndex resp).Pairwise (fun a b : Nat × β => a.1 ≠ b.1) := by
    have h2 : (List.map Prod.fst (pySortByIndex resp)).Pairwise (· ≠ ·) := hnodup
    rw [List.pairwise_map] at h2
    exact h2
  have hlt : (pySortByIndex resp).Pairwise (fun a b : Nat × β => a.1 < b.1) := by
    have := hsorted.and hne
    exact this.imp (fun hab => Nat.lt_of_le_of_ne hab.1 hab.2)
  -- two <-sorted permutations with the same elements are equal
  haveI : IsAntisymm (Nat × β) (fun a b => a.1 < b.1) :=
    ⟨fun a b hab hba => absurd (Nat.lt_trans hab hba) (Nat.lt_irrefl _)⟩
  exact List.eq_of_perm_of_sorted hsortperm hlt (enumTagged_pairwise_lt f texts)

theorem getEmbeddings_eq_map (f : String → β)
    (backend : List (Nat × String) → List (Nat × β))
    (hb : BackendComputes backend f) (texts : List String) :
    EmbeddingClient.getEmbeddings backend texts = texts.map f := by
  unfold EmbeddingClient.getEmbeddings
  simp only
  rw [pySortByIndex_of_perm_enumTagged f texts _ (hb texts.enum)]
  rw [List.map_map]
  have : (Prod.snd ∘ fun p : Nat × String => (p.1, f p.2))
      = fun p : Nat × String => f p.2 := rfl
  rw [this]
  have h2 : (fun p : Nat × String => f p.2) = f ∘ Prod.snd := rfl
  rw [h2, ← List.map_map, List.enum_map_snd]

/-- C2: for every list of N chunk texts given to the dual embedding generator,
the returned vector list has length N and the i-th output is the embedding of
the i-th input text, for any backend response order (`BackendComputes` lets the
backend permute its response arbitrarily) and any positive batch size: each
request item is tagged with its original index and responses are re-sorted by
that index before being returned.  Instantiating `β` with dense vectors and
with sparse vectors gives both halves of the claim, since
`get_dense_embeddings` and `get_sparse_embeddings` are the same code shape. -/
theorem embedding_generator_order_preservation {β : Type} (f : String → β)
    (backend : List (Nat × String) → List (Nat × β)) (B : Nat)
    (chunks : List DocumentChunk)
    (hB : 0 < B) (hb : BackendComputes backend f) :
    EmbedDocument.generate backend B chunks = (chunks.map (·.content)).map f ∧
    (EmbedDocument.generate backend B chunks).length = chunks.length := by
  have key : ∀ L : List (List String),
      L.flatMap (fun batch => EmbeddingClient.getEmbeddings backend batch)
        = L.flatten.map f := by
    intro L
    induction L with
    | nil => simp
    | cons b L ih =>
      simp only [List.flatMap_cons, List.flatten_cons, List.map_append, ih,
        getEmbeddings_eq_map f backend hb b]
  have hmain : EmbedDocument.generate backend B chunks
      = (chunks.map (·.content)).map f := by
    unfold EmbedDocument.generate
    simp only
    rw [key, toBatches_flatten]
  refine ⟨hmain, ?_⟩
  rw [hmain]
  simp

/-- Witness for C2 at a concrete input: three texts, batch size 2, a backend
that reverses each tagged batch before answering. -/
theorem embedding_generator_order_preservation_witness :
    0 < 2 ∧
    (EmbedDocument.generate
        (fun l => (l.map (fun p => (p.1, p.2.length))).reverse) 2
        [{ content := "a" }, { content := "bc" }, { content := "def" }]
      = (([{ content := "a" }, { content := "bc" },
           { content := "def" }] : List DocumentChunk).map (·.content)).map
          String.length ∧
     (EmbedDocument.generate
        (fun l => (l.map (fun p => (p.1, p.2.length))).reverse) 2
        [{ content := "a" }, { content := "bc" }, { content := "def" }]).length
      = ([{ content := "a" }, { content := "bc" },
          { content := "def" }] : List DocumentChunk).length) :=
  ⟨Nat.zero_lt_two,
   embedding_generator_order_preservation String.length
     (fun l => (l.map (fun p => (p.1, p.2.length))).reverse) 2
     [{ content := "a" }, { content := "bc" }, { content := "def" }]
     Nat.zero_lt_two (fun l => List.reverse_perm _)⟩

/-! ## PDF page extractor (`process_document.py`) -/

/-- Python's `str.strip()`: remove whitespace from both ends. -/
def pyStrip (s : String) : String :=
  ⟨((s.data.dropWhile Char.isWhitespace).reverse.dropWhile Char.isWhitespace).reverse⟩

/-- One element of the list `pymupdf4llm.to_markdown(..., page_chunks=True)`
returns: a dict carrying `metadata.page` (absent modelled as `none`) and
`text`. -/
structure PdfPageData where
  page : Option Nat := none
  text : String := ""
deriving DecidableEq, Repr

/-- `ProcessDocument._extract_with_pages` (`process_document.py`, lines 95–120),
decodable-PDF case where the library returned a list of page dicts.  The loop
takes each page's metadata page number (falling back to position + 1), and
appends `(page_num, content)` to `page_chunks` and `content` to
`full_markdown_parts` ONLY when `content.strip()` is non-empty; finally
`total_pages = len(page_chunks)` and the parts are joined with blank lines. -/
def ProcessDocument.extractWithPages (pageData : List PdfPageData) :
    String × Nat × List (Nat × String) :=
  let acc := pageData.enum.foldl
    (fun (acc : List (Nat × String) × List String) ip =>
      let pageNum := ip.2.page.getD (ip.1 + 1)
      let content := ip.2.text
      if pyStrip content = "" then acc
      else (acc.1 ++ [(pageNum, content)], acc.2 ++ [content]))
    ([], [])
  (String.intercalate "\n\n" acc.2, acc.1.length, acc.1)

/-- C3, counterexample: a 3-page document whose page 2 extracts to whitespace
yields only 2 page entries (pages 1 and 3) and `total_pages = 2`, not the 3
entries with an empty page 2 and `total_pages = 3` that the claim states. -/
theorem extractor_drops_whitespace_page :
    (ProcessDocument.extractWithPages
        [{ page := some 1, text := "Intro" }, { page := some 2, text := "  \n " },
         { page := some 3, text := "End" }]).2.1 = 2 ∧
    ((ProcessDocument.extractWithPages
        [{ page := some 1, text := "Intro" }, { page := some 2, text := "  \n " },
         { page := some 3, text := "End" }]).2.2).map Prod.fst = [1, 3] ∧
    (ProcessDocument.extractWithPages
        [{ page := some 1, text := "Intro" }, { page := some 2, text := "  \n " },
         { page := some 3, text := "End" }]).2.1 ≠ 3 := by
  refine ⟨?_, ?_, ?_⟩ <;> decide

theorem extractWithPages_foldl_spec (l : List (Nat × PdfPageData))
    (acc1 : List (Nat × String)) (acc2 : List String) :
    l.foldl
      (fun (acc : List (Nat × String) × List String) ip =>
        let pageNum := ip.2.page.getD (ip.1 + 1)
        let content := ip.2.text
        if pyStrip content = "" then acc
        else (acc.1 ++ [(pageNum, content)], acc.2 ++ [content]))
      (acc1, acc2)
    = (acc1 ++ l.filterMap (fun ip =>
          if pyStrip ip.2.text = "" then none
          else some (ip.2.page.getD (ip.1 + 1), ip.2.text)),
       acc2 ++ l.filterMap (fun ip =>
          if pyStrip ip.2.text = "" then none else some ip.2.text)) := by
  induction l generalizing acc1 acc2 with
  | nil => simp
  | cons p l ih =>
    by_cases hp : pyStrip p.2.text = ""
    · simp [List.foldl_cons, List.filterMap_cons, hp, ih]
    · simp [List.foldl_cons, List.filterMap_cons, hp, ih]

/-- C3, amended: the extractor omits every page whose primary markdown
extraction yields only whitespace (no fallback extraction is attempted); the
returned page list has one entry per page with non-whitespace text, in order,
keeping the original page numbers, and the returned total page count is the
number of those pages — not the physical page count. -/
theorem extractor_keeps_only_nonempty_pages (pageData : List PdfPageData) :
    (ProcessDocument.extractWithPages pageData).2.2 =
      pageData.enum.filterMap (fun ip =>
        if pyStrip ip.2.text = "" then none
        else some (ip.2.page.getD (ip.1 + 1), ip.2.text)) ∧
    (ProcessDocument.extractWithPages pageData).2.1 =
      ((ProcessDocument.extractWithPages pageData).2.2).length := by
  unfold ProcessDocument.extractWithPages
  simp only
  rw [extractWithPages_foldl_spec]
  simp

/-! ## Structural chunker (`chunk_document.py`, `value_objects.py`, `config.py`) -/

/-- `ChunkingConfig` from `domain/value_objects.py`; its field defaults are
`chunk_size = 1024` and `chunk_overlap = 50` (the `__post_init__` validation
accepts these defaults). -/
structure ChunkingConfig where
  chunk_size : Nat := 1024
  chunk_overlap : Nat := 50
deriving DecidableEq, Repr

/-- `Settings.chunk_size` from `core/config.py` ("Document Processing").
`ChunkDocument` never reads this setting; it is embedded because the claim
about the default chunk size cites it. -/
def Settings.chunk_size : Nat := 512

/-- `ChunkDocument.__init__` (`chunk_document.py`, line 27):
`self.config = config or ChunkingConfig()`; the upload pipeline constructs
`ChunkDocument(llm_service=llm_service)` with no config, so this default is
the config in effect. -/
def ChunkDocument.defaultConfig : ChunkingConfig := {}

/-- A block of a Chonkie `MarkdownDocument` (prose chunk, code block or
table).  `text` stands for the block's `.text`/`.content`/`str(block)`
payload; `startIndex`/`indexAttr` model the optional `start_index`/`index`
attributes probed by `_get_position`. -/
structure MdBlock where
  text : String := ""
  startIndex : Option Int := none
  indexAttr : Option Int := none
deriving DecidableEq, Repr

/-- A Chonkie `MarkdownDocument`: prose chunks, code blocks and tables of one
page, as consumed by `ChunkDocument.execute`. -/
structure ChonkieDoc where
  chunks : List MdBlock := []
  code : List MdBlock := []
  tables : List MdBlock := []
deriving DecidableEq, Repr

/-- External collaborators of `ChunkDocument`: the three Chonkie chunkers
(`RecursiveChunker`, `CodeChunker`, `TableChunker`), each constructed with a
chunk size and returning `(text, token_count)` chunks; the LLM summarizer
(`llm_groq_service`, which may raise); and Python's builtin `hash` used by the
position fallback. -/
structure ChunkerEnv where
  recursiveChunk : Nat → String → List (String × Nat)
  codeChunk : Nat → String → List (String × Nat)
  tableChunk : Nat → String → List (String × Nat)
  summarizeCode : String → Except String String
  summarizeTable : String → Except String String
  pyHash : String → Int

/-- `ChunkDocument._get_position`: prefer `start_index`, then `index`, else
`hash(str(block)[:100]) % 1000000`. -/
def ChunkDocument.getPosition (env : ChunkerEnv) (b : MdBlock) : Int :=
  match b.startIndex with
  | some p => p
  | none =>
    match b.indexAttr with
    | some p => p
    | none => env.pyHash (String.mk (b.text.data.take 100)) % 1000000

/-- `ChunkDocument._chunk_single_text`: skip whitespace-only blocks, otherwise
run `RecursiveChunker(chunk_size=self.config.chunk_size)` on the block text
and wrap each produced chunk with `metadata["type"] = "text"`. -/
def ChunkDocument.chunkSingleText (env : ChunkerEnv) (cfg : ChunkingConfig)
    (docId : String) (b : MdBlock) : List DocumentChunk :=
  if pyStrip b.text = "" then []
  else (env.recursiveChunk cfg.chunk_size b.text).map (fun tc =>
    { document_id := docId, content := tc.1, token_count := tc.2, mtype := "text" })

/-- `ChunkDocument._chunk_single_code`: skip whitespace-only blocks; summarize
via the LLM, falling back to a truncated-raw-content stand-in on failure;
prepend the summary to the raw code; split with
`CodeChunker(chunk_size=self.config.chunk_size)`. -/
def ChunkDocument.chunkSingleCode (env : ChunkerEnv) (cfg : ChunkingConfig)
    (docId : String) (b : MdBlock) : List DocumentChunk :=
  if pyStrip b.text = "" then []
  else
    let summary := match env.summarizeCode b.text with
      | .ok s => s
      | .error _ =>
        "Code block (summarization failed): " ++ String.mk (b.text.data.take 100) ++ "..."
    let combined := "Summary of the following code:\n" ++ summary ++
      "\n\n---\n\nOriginal Code:\n```\n" ++ b.text ++ "\n```"
    (env.codeChunk cfg.chunk_size combined).map (fun tc =>
      { document_id := docId, content := tc.1, token_count := tc.2,
        mtype := "code_with_summary" })

/-- `ChunkDocument._chunk_single_table`: like the code path, with the table
summarizer, the table prompt template and
`TableChunker(chunk_size=self.config.chunk_size)`. -/
def ChunkDocument.chunkSingleTable (env : ChunkerEnv) (cfg : ChunkingConfig)
    (docId : String) (b : MdBlock) : List DocumentChunk :=
  if pyStrip b.text = "" then []
  else
    let summary := match env.summarizeTable b.text with
      | .ok s => s
      | .error _ =>
        "Table (summarization failed): " ++ String.mk (b.text.data.take 100) ++ "..."
    let combined := "Summary of the following table:\n" ++ summary ++
      "\n\n---\n\nOriginal Table:\n" ++ b.text
    (env.tableChunk cfg.chunk_size combined).map (fun tc =>
      { document_id := docId, content := tc.1, token_count := tc.2,
        mtype := "table_with_summary" })

/-- `ChunkDocument.execute` (`chunk_document.py`, lines 30–91): for each page
given IN THIS CALL, collect `(position, chunk)` pairs from the text, code and
table blocks, stable-sort them by position, stamp the page number on every
chunk of the page, and concatenate pages; finally
"Re-index all chunks sequentially across all pages" — i.e. across the pages
of this call only.  The upload pipeline invokes this once per single page
(`upload_document.py`, line 78: `self.chunk.execute([page_tuple], doc_id)`),
so there the re-index restarts at 0 for every page. -/
def ChunkDocument.execute (env : ChunkerEnv) (cfg : ChunkingConfig)
    (pageDocs : List (ChonkieDoc × Nat)) (docId : String) : List DocumentChunk :=
  let allChunks := pageDocs.flatMap (fun pd =>
    let positioned :=
      pd.1.chunks.flatMap (fun b => (ChunkDocument.chunkSingleText env cfg docId b).map
        (fun c => (ChunkDocument.getPosition env b, c)))
      ++ pd.1.code.flatMap (fun b => (ChunkDocument.chunkSingleCode env cfg docId b).map
        (fun c => (ChunkDocument.getPosition env b, c)))
      ++ pd.1.tables.flatMap (fun b => (ChunkDocument.chunkSingleTable env cfg docId b).map
        (fun c => (ChunkDocument.getPosition env b, c)))
    let sorted := List.insertionSort (fun a b => a.1 ≤ b.1) positioned
    sorted.map (fun pc => { pc.2 with page_number := pd.2 }))
  allChunks.enum.map (fun ic => { ic.2 with chunk_index := ic.1 })

/-! ## A size-bounded recursive splitter, for the chunk-size claim -/

/-- Modelled from the spec: the Chonkie `RecursiveChunker` is an external
library and its code is not part of this repository.  Per §4.2 it is a
"size-bounded recursive text splitter using a configured target chunk size …
never exceed it except when a single atomic unit (e.g. one long sentence)
cannot be split further".  A prose block is modelled as the list of its
atomic units' token counts; the splitter packs whole units greedily, emitting
an over-sized unit alone. -/
def recursiveSplitGo (chunkSize : Nat) : List Nat → List Nat → List (List Nat)
  | cur, [] => if cur.isEmpty then [] else [cur]
  | cur, u :: rest =>
    if cur.sum + u ≤ chunkSize then recursiveSplitGo chunkSize (cur ++ [u]) rest
    else if cur.isEmpty then [u] :: recursiveSplitGo chunkSize [] rest
    else cur :: recursiveSplitGo chunkSize [u] rest

/-- Modelled from the spec: entry point of the splitter model. -/
def recursiveSplitModel (chunkSize : Nat) (units : List Nat) : List (List Nat) :=
  recursiveSplitGo chunkSize [] units

theorem recursiveSplitGo_bound (cs : Nat) (us : List Nat) :
    ∀ cur, (cur.sum ≤ cs ∨ ∃ u, cur = [u]) →
      ∀ c ∈ recursiveSplitGo cs cur us, c.sum ≤ cs ∨ ∃ u, c = [u] := by
  induction us with
  | nil =>
    intro cur hcur c hc
    unfold recursiveSplitGo at hc
    by_cases hemp : cur.isEmpty
    · simp [hemp] at hc
    · simp [hemp] at hc
      subst hc
      exact hcur
  | cons u rest ih =>
    intro cur hcur c hc
    unfold recursiveSplitGo at hc
    by_cases hfit : cur.sum + u ≤ cs
    · rw [if_pos hfit] at hc
      refine ih (cur ++ [u]) ?_ c hc
      left
      simpa using hfit
    · rw [if_neg hfit] at hc
      by_cases hemp : cur.isEmpty
      · rw [if_pos hemp] at hc
        rcases List.mem_cons.mp hc with hc | hc
        · right; exact ⟨u, hc⟩
        · exact ih [] (Or.inl (by simp)) c hc
      · rw [if_neg hemp] at hc
        rcases List.mem_cons.mp hc with hc | hc
        · subst hc; exact hcur
        · exact ih [u] (Or.inr ⟨u, rfl⟩) c hc

/-- C9, counterexample: the target chunk size the recursive splitter is
constructed with defaults to `ChunkingConfig().chunk_size = 1024`, not the
claimed 512.  `settings.chunk_size = 512` exists in `core/config.py` but is
never passed to `ChunkDocument`.  The third conjunct traces the flow: with a
probe splitter that records the chunk size it was constructed with,
`_chunk_single_text` under the default config hands the splitter 1024. -/
theorem default_chunk_size_is_1024_not_512 :
    ChunkDocument.defaultConfig.chunk_size = 1024 ∧
    ChunkDocument.defaultConfig.chunk_size ≠ 512 ∧
    Settings.chunk_size = 512 ∧
    (ChunkDocument.chunkSingleText
        { recursiveChunk := fun cs s => [(s, cs)],
          codeChunk := fun _ _ => [], tableChunk := fun _ _ => [],
          summarizeCode := fun _ => .ok "", summarizeTable := fun _ => .ok "",
          pyHash := fun _ => 0 }
        ChunkDocument.defaultConfig "doc" { text := "hello" }).map (·.token_count)
      = [1024] := by
  refine ⟨rfl, by decide, rfl, by decide⟩

/-- C9, amended: prose blocks are split by the recursive text splitter with
the configured target chunk size, whose default — as `ChunkDocument`
constructs it — is 1024 tokens (not 512), and no produced chunk exceeds that
size except when a single atomic unit cannot be split further. -/
theorem prose_chunk_size_bound (units : List Nat) (c : List Nat)
    (hc : c ∈ recursiveSplitModel ChunkDocument.defaultConfig.chunk_size units) :
    ChunkDocument.defaultConfig.chunk_size = 1024 ∧
    (c.sum ≤ ChunkDocument.defaultConfig.chunk_size ∨ ∃ u, c = [u]) :=
  ⟨rfl, recursiveSplitGo_bound ChunkDocument.defaultConfig.chunk_size units []
    (Or.inl (by simp)) c hc⟩

/-- Witness for C9's amended theorem at a concrete input: two 600-token
sentences are packed into two separate chunks, each within the 1024 bound. -/
theorem prose_chunk_size_bound_witness :
    [600] ∈ recursiveSplitModel ChunkDocument.defaultConfig.chunk_size [600, 600] ∧
    (ChunkDocument.defaultConfig.chunk_size = 1024 ∧
     ([600].sum ≤ ChunkDocument.defaultConfig.chunk_size ∨ ∃ u, [600] = [u])) :=
  ⟨by decide, prose_chunk_size_bound [600, 600] [600] (by decide)⟩

/-! ## Hybrid vector store (`qdrant_client.py`, `embedding_repository_qdrant.py`) -/

/-- `generate_user_collection_name` (`core/qdrant_client.py`). -/
def generate_user_collection_name (user_id : String) : String :=
  "user_" ++ user_id ++ "_documents"

/-- A stored Qdrant point: id, the two named vectors, and the payload written
by `store_chunks`. -/
structure QdrantPoint where
  id : String := ""
  dense : List ℚ := []
  sparse : SparseVec := {}
  document_id : String := ""
  content : String := ""
  chunk_index : Nat := 0
  page_number : Nat := 0
  token_count : Nat := 0
deriving DecidableEq, Repr

/-- The vector store: named collections with their points in stored order. -/
structure QdrantState where
  collections : List (String × List QdrantPoint) := []
deriving DecidableEq, Repr

/-- `client.collection_exists` / `QdrantManager.collection_exists`. -/
def QdrantState.collectionExists (st : QdrantState) (name : String) : Bool :=
  st.collections.any (fun c => c.1 = name)

/-- The points of a collection (empty when the collection does not exist). -/
def QdrantState.points (st : QdrantState) (name : String) : List QdrantPoint :=
  ((st.collections.find? (fun c => c.1 = name)).map (fun c => c.2)).getD []

/-- `_ensure_collection_exists`: create-if-absent. -/
def QdrantState.ensureCollection (st : QdrantState) (name : String) : QdrantState :=
  if st.collectionExists name then st
  else { collections := st.collections ++ [(name, [])] }

/-- Idempotent upsert by point id into one collection's point list. -/
def upsertPointIntoList (ps : List QdrantPoint) (p : QdrantPoint) : List QdrantPoint :=
  if ps.any (fun q => q.id = p.id) then ps.map (fun q => if q.id = p.id then p else q)
  else ps ++ [p]

/-- `client.upsert` of one point into a named collection. -/
def QdrantState.upsertPoint (st : QdrantState) (name : String) (p : QdrantPoint) :
    QdrantState :=
  { collections := st.collections.map
      (fun c => if c.1 = name then (c.1, upsertPointIntoList c.2 p) else c) }

/-- `EmbeddingRepositoryQdrant.store_chunks` (lines 73–175).  The
`document_id` PARAMETER is unused by the body (each point's payload takes
`chunk.document_id` from the chunk itself), so the model takes only what the
body reads.  The batch loop upserts consecutive slices with `wait=True`; the
final state equals upserting the points one by one in order, which is how it
is modelled (the chunk/vector lists are assumed aligned, as in the caller). -/
def EmbeddingRepositoryQdrant.store_chunks (st : QdrantState) (user_id : String)
    (chunks : List DocumentChunk) (dense : List (List ℚ)) (sparse : List SparseVec) :
    List String × QdrantState :=
  let name := generate_user_collection_name user_id
  let st1 := if dense.isEmpty then st else st.ensureCollection name
  if chunks.isEmpty then ([], st1)
  else
    let points := (chunks.zip (dense.zip sparse)).map (fun cz =>
      { id := cz.1.id, dense := cz.2.1, sparse := cz.2.2,
        document_id := cz.1.document_id, content := cz.1.content,
        chunk_index := cz.1.chunk_index, page_number := cz.1.page_number,
        token_count := cz.1.token_count : QdrantPoint })
    (chunks.map (fun c => c.id), points.foldl (fun s p => s.upsertPoint name p) st1)

/-- `EmbeddingRepositoryQdrant.delete_document_chunks` (lines 177–199): return
without doing anything when the collection does not exist; otherwise delete
every point whose payload `document_id` matches. -/
def EmbeddingRepositoryQdrant.delete_document_chunks (st : QdrantState)
    (user_id document_id : String) : QdrantState :=
  let name := generate_user_collection_name user_id
  if st.collectionExists name then
    { collections := st.collections.map
        (fun c => if c.1 = name
          then (c.1, c.2.filter (fun p => ¬ p.document_id = document_id)) else c) }
  else st

/-- `EmbeddingRepositoryQdrant.search_similar` (lines 201–277): empty result
when the collection does not exist; otherwise the hybrid (or dense-only)
query runs against the collection's points — the Qdrant query engine itself
is external, modelled by the `queryEngine` parameter. -/
def EmbeddingRepositoryQdrant.search_similar
    (queryEngine : List QdrantPoint → List (QdrantPoint × ℚ))
    (st : QdrantState) (user_id : String) : List (QdrantPoint × ℚ) :=
  let name := generate_user_collection_name user_id
  if st.collectionExists name then queryEngine (st.points name)
  else []

/-! ## `UpsertDocument` and the `store_chunks` keyword mismatch
(`upsert_document.py`, `domain/repository_interface.py`) -/

/-- Python keyword binding for a call with no positional arguments against a
function without `**kwargs`: it raises `TypeError` unless every passed keyword
is a declared parameter and every parameter without a default is supplied. -/
def pyKwBindOk (params required kwargs : List String) : Bool :=
  kwargs.all (fun k => params.contains k) && required.all (fun p => kwargs.contains p)

/-- Parameters of `EmbeddingRepositoryQdrant.store_chunks` (lines 73–81);
`batch_size` is the only one with a default. -/
def storeChunksParams : List String :=
  ["user_id", "document_id", "chunks", "dense_embeddings", "sparse_embeddings",
   "batch_size"]

/-- The parameters of `EmbeddingRepositoryQdrant.store_chunks` without a
default value. -/
def storeChunksRequired : List String :=
  ["user_id", "document_id", "chunks", "dense_embeddings", "sparse_embeddings"]

/-- The keyword set `UpsertDocument.execute` passes to `store_chunks`
(lines 28–34): note `course_id`, not `document_id`. -/
def upsertCallKwargs : List String :=
  ["user_id", "course_id", "chunks", "dense_embeddings", "sparse_embeddings"]

/-- `UpsertDocument.execute` (`upsert_document.py`): return 0 for an empty
chunk list; otherwise call `self.embedding_repo.store_chunks(...)` purely by
keyword, wrapping any exception into `VectorStoreError` (`except Exception`).
Against `EmbeddingRepositoryQdrant` the keyword binding itself is modelled:
when it fails, the `TypeError` is caught and re-raised as `VectorStoreError`
and the store is untouched. -/
def UpsertDocument.execute (st : QdrantState) (user_id course_id : String)
    (chunks : List DocumentChunk) (dense : List (List ℚ)) (sparse : List SparseVec) :
    Except String Nat × QdrantState :=
  if chunks.isEmpty then (.ok 0, st)
  else if pyKwBindOk storeChunksParams storeChunksRequired upsertCallKwargs then
    let r := EmbeddingRepositoryQdrant.store_chunks st user_id chunks dense sparse
    (.ok r.1.length, r.2)
  else (.error "VectorStoreError: Could not upsert chunks", st)

/-- C5: for every call of `UpsertDocument.execute` with a non-empty chunk
list, the inner call to the Qdrant repository's `store_chunks` raises — the
use case passes the keyword `course_id`, which
`EmbeddingRepositoryQdrant.store_chunks` does not declare (its parameter is
`document_id`) — so `execute` always raises `VectorStoreError`, the keyword
binding check is false, and no point is stored through this path (the store
state is returned unchanged). -/
theorem upsert_always_raises_vector_store_error (st : QdrantState)
    (user_id course_id : String) (chunks : List DocumentChunk)
    (dense : List (List ℚ)) (sparse : List SparseVec) (h : chunks ≠ []) :
    UpsertDocument.execute st user_id course_id chunks dense sparse
      = (.error "VectorStoreError: Could not upsert chunks", st) ∧
    pyKwBindOk storeChunksParams storeChunksRequired upsertCallKwargs = false := by
  have hbind : pyKwBindOk storeChunksParams storeChunksRequired upsertCallKwargs
      = false := by decide
  constructor
  · unfold UpsertDocument.execute
    rw [if_neg (by simpa [List.isEmpty_iff] using h), hbind]
    simp
  · exact hbind

/-- Witness for C5 at a concrete input: one default chunk and an empty store. -/
theorem upsert_always_raises_vector_store_error_witness :
    ([({} : DocumentChunk)] ≠ ([] : List DocumentChunk)) ∧
    (UpsertDocument.execute {} "u" "c" [{}] [] []
        = (.error "VectorStoreError: Could not upsert chunks", {}) ∧
     pyKwBindOk storeChunksParams storeChunksRequired upsertCallKwargs = false) :=
  ⟨by decide, upsert_always_raises_vector_store_error {} "u" "c" [{}] [] []
    (by decide)⟩

/-! ## Ingestion orchestrator (`upload_document.py`) -/

/-- `settings.pages_per_batch` (`core/config.py`). -/
def Settings.pages_per_batch : Nat := 6

/-- Typed failures escaping the pipeline's inner steps (`ChunkingError`,
`EmbeddingError`, `VectorStoreError`); the pipeline only catches them
wholesale (`except Exception`). -/
inductive PipelineError
  | chunking (msg : String)
  | embedding (msg : String)
  | vectorStore (msg : String)
deriving DecidableEq, Repr

/-- The `str(e)` of a pipeline error. -/
def PipelineError.message : PipelineError → String
  | .chunking m => m
  | .embedding m => m
  | .vectorStore m => m

/-- The page loop of `_chunk_and_embed_batch` (lines 76–79):
`for page_tuple in page_batch: page_chunks = await self.chunk.execute([page_tuple], doc_id);
all_batch_chunks.extend(page_chunks)` — one page per chunker call, first
exception propagates. -/
def UploadDocument.chunkPagesLoop
    (chunkExec : List (ChonkieDoc × Nat) → Except PipelineError (List DocumentChunk)) :
    List (ChonkieDoc × Nat) → List DocumentChunk →
      Except PipelineError (List DocumentChunk)
  | [], acc => .ok acc
  | page :: rest, acc =>
    match chunkExec [page] with
    | .ok pageChunks => UploadDocument.chunkPagesLoop chunkExec rest (acc ++ pageChunks)
    | .error e => .error e

/-- `UploadDocument._chunk_and_embed_batch` (lines 55–91): inside the
semaphore (which only bounds concurrency and does not affect the value),
chunk the batch's pages one page per call, short-circuit to `([], [], [])`
when no chunks were produced, otherwise embed the batch; any exception makes
the whole batch contribute `([], [], [])` instead of failing the document. -/
def UploadDocument.chunkAndEmbedBatch
    (chunkExec : List (ChonkieDoc × Nat) → Except PipelineError (List DocumentChunk))
    (embedExec : List DocumentChunk →
      Except PipelineError (List (List ℚ) × List SparseVec))
    (batch : List (ChonkieDoc × Nat)) :
    List DocumentChunk × List (List ℚ) × List SparseVec :=
  match UploadDocument.chunkPagesLoop chunkExec batch [] with
  | .error _ => ([], [], [])
  | .ok allBatchChunks =>
    if allBatchChunks.isEmpty then ([], [], [])
    else
      match embedExec allBatchChunks with
      | .ok ds => (allBatchChunks, ds.1, ds.2)
      | .error _ => ([], [], [])

/-- The document fields the pipeline writes at the end, plus the logged
failed-batch count and the chunk list it collected for the upsert step. -/
structure PipelineOutcome where
  status : String
  chunks_count : Nat
  error_message : Option String := none
  failed_batches : Nat
  collected_chunks : List DocumentChunk
deriving DecidableEq, Repr

/-- `UploadDocument._process_document_pipeline` (lines 93–188), after a
successful page extraction: slice the pages into `pages_per_batch` batches,
run `_chunk_and_embed_batch` on every batch (`asyncio.gather` returns the
results in task order), collect chunks and vectors while counting the batches
that contributed no chunks, upsert once if any chunks were collected, then
mark the document `completed` with the upserted count — while any exception
(in particular one raised by the upsert step) drops to the `except` block,
which marks the document `failed` with the error message and leaves
`chunks_count` at its initial 0. -/
def UploadDocument.processDocumentPipeline
    (chunkExec : List (ChonkieDoc × Nat) → Except PipelineError (List DocumentChunk))
    (embedExec : List DocumentChunk →
      Except PipelineError (List (List ℚ) × List SparseVec))
    (upsertExec : List DocumentChunk → List (List ℚ) → List SparseVec →
      Except PipelineError Nat)
    (pagesPerBatch : Nat) (pages : List (ChonkieDoc × Nat)) : PipelineOutcome :=
  let pageBatches := toBatches pagesPerBatch pages
  let allResults := pageBatches.map (UploadDocument.chunkAndEmbedBatch chunkExec embedExec)
  let collected := allResults.foldl
    (fun (acc : List DocumentChunk × List (List ℚ) × List SparseVec × Nat) r =>
      (acc.1 ++ r.1, acc.2.1 ++ r.2.1, acc.2.2.1 ++ r.2.2,
       acc.2.2.2 + if r.1.isEmpty then 1 else 0))
    ([], [], [], 0)
  let upserted : Except PipelineError Nat :=
    if collected.1.isEmpty then .ok 0
    else upsertExec collected.1 collected.2.1 collected.2.2.1
  match upserted with
  | .ok n =>
    { status := "completed", chunks_count := n,
      failed_batches := collected.2.2.2, collected_chunks := collected.1 }
  | .error e =>
    { status := "failed", chunks_count := 0, error_message := some e.message,
      failed_batches := collected.2.2.2, collected_chunks := collected.1 }

/-- Adapter tying the pipeline's upsert step (lines 160–166) to
`UpsertDocument.execute`, surfacing its `VectorStoreError`. -/
def realUpsertExec (st : QdrantState) (user course : String) :
    List DocumentChunk → List (List ℚ) → List SparseVec →
      Except PipelineError Nat :=
  fun chunks dense sparse =>
    match (UpsertDocument.execute st user course chunks dense sparse).1 with
    | .ok n => .ok n
    | .error e => .error (.vectorStore e)

/-- A chunker environment whose splitters return each block as one chunk and
whose LLM always answers — enough to trace index assignment. -/
def probeEnv : ChunkerEnv :=
  { recursiveChunk := fun _ s => [(s, 1)],
    codeChunk := fun _ s => [(s, 1)],
    tableChunk := fun _ s => [(s, 1)],
    summarizeCode := fun _ => .ok "summary",
    summarizeTable := fun _ => .ok "summary",
    pyHash := fun _ => 0 }

/-- The chunk step exactly as the upload pipeline runs it:
`ChunkDocument.execute` on the pages handed in. -/
def realChunkExec (docId : String) :
    List (ChonkieDoc × Nat) → Except PipelineError (List DocumentChunk) :=
  fun pds => .ok (ChunkDocument.execute probeEnv ChunkDocument.defaultConfig pds docId)

/-- An embedding step returning one dense and one sparse vector per chunk. -/
def probeEmbedExec :
    List DocumentChunk → Except PipelineError (List (List ℚ) × List SparseVec) :=
  fun cs => .ok (cs.map (fun _ => [0]), cs.map (fun _ => {}))

/-- Two pages with one prose block each. -/
def twoPages : List (ChonkieDoc × Nat) :=
  [({ chunks := [{ text := "page one text" }] }, 1),
   ({ chunks := [{ text := "page two text" }] }, 2)]

/-- C1 (code bug): with two pages of one chunk each, the chunk list the
pipeline collects and hands to the upsert step carries sequence indices
`[0, 0]`, not the claimed gapless `0..N-1 = [0, 1]`: the re-index lives
inside `ChunkDocument.execute`, which `_chunk_and_embed_batch` calls once per
single page, and no global re-index follows the batch gather. -/
theorem pipeline_chunk_indices_restart_per_page :
    ((UploadDocument.processDocumentPipeline (realChunkExec "doc") probeEmbedExec
        (realUpsertExec {} "user" "course") Settings.pages_per_batch
        twoPages).collected_chunks.map (fun c => c.chunk_index)) = [0, 0] ∧
    ¬ ((UploadDocument.processDocumentPipeline (realChunkExec "doc") probeEmbedExec
        (realUpsertExec {} "user" "course") Settings.pages_per_batch
        twoPages).collected_chunks.map (fun c => c.chunk_index)) = [0, 1] := by
  constructor <;> decide

/-- Chunk step for the batch-isolation scenario: page 2 raises a
`ChunkingError` during chunking; every other page yields one chunk. -/
def throwingChunkExec :
    List (ChonkieDoc × Nat) → Except PipelineError (List DocumentChunk) :=
  fun pds =>
    if pds.any (fun pd => pd.2 = 2) then .error (.chunking "boom")
    else .ok (pds.map (fun pd =>
      { document_id := "doc", content := "c", page_number := pd.2 }))

/-- Four pages, processed as 4 single-page batches in the C6 scenario. -/
def fourPages : List (ChonkieDoc × Nat) :=
  [({}, 1), ({}, 2), ({}, 3), ({}, 4)]

/-- C6 (code bug): with page-batch 2 of 4 throwing during chunking, the
isolation machinery itself works — the throwing batch contributes zero
chunks, the other three batches contribute their chunks (3 = sum over
batches 1, 3, 4), and exactly one failed batch is counted — but the document
does NOT end `completed`: the final upsert call raises `VectorStoreError`
(the `course_id` keyword mismatch established for C5), so the pipeline's
`except` block marks the document `failed`. -/
theorem batch_isolation_scenario_marks_failed :
    (UploadDocument.processDocumentPipeline throwingChunkExec probeEmbedExec
        (realUpsertExec {} "user" "course") 1 fourPages).failed_batches = 1 ∧
    (UploadDocument.processDocumentPipeline throwingChunkExec probeEmbedExec
        (realUpsertExec {} "user" "course") 1 fourPages).collected_chunks.length = 3 ∧
    (UploadDocument.processDocumentPipeline throwingChunkExec probeEmbedExec
        (realUpsertExec {} "user" "course") 1 fourPages).status = "failed" ∧
    ¬ (UploadDocument.processDocumentPipeline throwingChunkExec probeEmbedExec
        (realUpsertExec {} "user" "course") 1 fourPages).status = "completed" := by
  refine ⟨?_, ?_, ?_, ?_⟩ <;> decide

theorem collect_foldl_failed
    (rs : List (List DocumentChunk × List (List ℚ) × List SparseVec))
    (acc : List DocumentChunk × List (List ℚ) × List SparseVec × Nat) :
    (rs.foldl (fun acc r =>
        (acc.1 ++ r.1, acc.2.1 ++ r.2.1, acc.2.2.1 ++ r.2.2,
         acc.2.2.2 + if r.1.isEmpty then 1 else 0)) acc).2.2.2
      = acc.2.2.2 + rs.countP (fun r => r.1.isEmpty) := by
  induction rs generalizing acc with
  | nil => simp
  | cons r rs ih =>
    simp only [List.foldl_cons, List.countP_cons, ih]
    by_cases hr : r.1.isEmpty <;> simp [hr] <;> omega

/-- C10: the failed-batch count the pipeline records equals the number of
page-batches whose result contains zero chunks; and a batch whose pages all
chunk without exception but produce no chunks yields the very same
`([], [], [])` result as a throwing batch, so it is counted as failed exactly
like one that threw. -/
theorem failed_batch_count_counts_empty_results
    (chunkExec : List (ChonkieDoc × Nat) → Except PipelineError (List DocumentChunk))
    (embedExec : List DocumentChunk →
      Except PipelineError (List (List ℚ) × List SparseVec))
    (upsertExec : List DocumentChunk → List (List ℚ) → List SparseVec →
      Except PipelineError Nat)
    (B : Nat) (pages : List (ChonkieDoc × Nat)) :
    (UploadDocument.processDocumentPipeline chunkExec embedExec upsertExec B
        pages).failed_batches
      = (((toBatches B pages).map
            (UploadDocument.chunkAndEmbedBatch chunkExec embedExec)).filter
          (fun r => r.1.isEmpty)).length ∧
    ∀ batch : List (ChonkieDoc × Nat),
      (∀ page ∈ batch, chunkExec [page] = .ok []) →
      UploadDocument.chunkAndEmbedBatch chunkExec embedExec batch = ([], [], []) := by
  constructor
  · unfold UploadDocument.processDocumentPipeline
    dsimp only
    split
    · dsimp only
      rw [collect_foldl_failed]
      simp [List.countP_eq_length_filter]
    · dsimp only
      rw [collect_foldl_failed]
      simp [List.countP_eq_length_filter]
  · intro batch hbatch
    have hloop : ∀ (bs : List (ChonkieDoc × Nat)),
        (∀ p ∈ bs, chunkExec [p] = .ok []) →
        ∀ acc, UploadDocument.chunkPagesLoop chunkExec bs acc = .ok acc := by
      intro bs
      induction bs with
      | nil => intro _ acc; rfl
      | cons p bs ih =>
        intro hall acc
        unfold UploadDocument.chunkPagesLoop
        rw [hall p (List.mem_cons_self p bs)]
        simpa using ih (fun q hq => hall q (List.mem_cons_of_mem p hq)) acc
    unfold UploadDocument.chunkAndEmbedBatch
    rw [hloop batch hbatch []]
    rfl

/-- Witness for C10's second conjunct at a concrete batch: one page whose
chunker call succeeds with zero chunks combines to the failed-batch result. -/
theorem failed_batch_count_counts_empty_results_witness :
    (∀ page ∈ ([({}, 1)] : List (ChonkieDoc × Nat)),
        (fun _ => (.ok [] : Except PipelineError (List DocumentChunk)))
          [page] = .ok []) ∧
    UploadDocument.chunkAndEmbedBatch (fun _ => .ok []) probeEmbedExec
        [({}, 1)] = ([], [], []) :=
  ⟨fun _ _ => rfl,
   (failed_batch_count_counts_empty_results (fun _ => .ok []) probeEmbedExec
      (fun _ _ _ => .ok 0) 1 [({}, 1)]).2 [({}, 1)] (fun _ _ => rfl)⟩

/-! ## Retrieval & context expansion (`retriever_qdrant.py`) -/

/-- `RetrievedChunk` (`features/chat/domain/entities.py`), query-scoped; the
free-form metadata dict is not inspected by the expansion logic and is
omitted. -/
structure RetrievedChunk where
  chunk_id : String := ""
  document_id : String := ""
  content : String := ""
  score : ℚ := 0
  chunk_index : Nat := 0
  page_number : Nat := 0
  token_count : Nat := 0
deriving DecidableEq, Repr

/-- The `score_threshold` default of `retrieve_similar_chunks` (line 31). -/
def RetrieverQdrant.defaultScoreThreshold : ℚ := 7 / 10

/-- `RetrieverQdrant._convert_to_chunks` on a scroll result: points carry no
score, so `result.get('score', 0.0)` yields 0.0. -/
def convertPointToChunk (p : QdrantPoint) : RetrievedChunk :=
  { chunk_id := p.id, document_id := p.document_id, content := p.content,
    score := 0, chunk_index := p.chunk_index, page_number := p.page_number,
    token_count := p.token_count }

/-- One `client.scroll(..., limit=1)` with a point filter on
`document_id = docId ∧ chunk_index = k`: the first stored matching point. -/
def scrollByIndex (st : QdrantState) (name docId : String) (k : Nat) :
    List QdrantPoint :=
  ((st.points name).filter
    (fun p => p.document_id == docId && p.chunk_index == k)).take 1

/-- `RetrieverQdrant._get_neighboring_chunks` (lines 259–348): three scroll
lookups at `chunk_index + 1`, `+ 2`, `+ 3` (point-filter lookups, not vector
search), converted and concatenated. -/
def RetrieverQdrant.getNeighboringChunks (st : QdrantState) (name docId : String)
    (k : Nat) : List RetrievedChunk :=
  (scrollByIndex st name docId (k + 1)).map convertPointToChunk
  ++ (scrollByIndex st name docId (k + 2)).map convertPointToChunk
  ++ (scrollByIndex st name docId (k + 3)).map convertPointToChunk

/-- The in-place mutation of one high-scoring chunk (lines 236–253): fetch its
neighbors and, when there are any, append their contents to the chunk's
content, blank-line separated. -/
def RetrieverQdrant.expandOne (st : QdrantState) (name : String)
    (c : RetrievedChunk) : RetrievedChunk :=
  let neighbors := RetrieverQdrant.getNeighboringChunks st name c.document_id c.chunk_index
  if neighbors.isEmpty then c
  else { c with content := c.content ++ "\n\n"
          ++ String.intercalate "\n\n" (neighbors.map (fun n => n.content)) }

/-- `RetrieverQdrant._expand_context_for_high_scores` (lines 202–257): collect
the chunks with `score >= score_threshold`; when none, skip expansion and
return the list unchanged; otherwise mutate exactly the high-scoring entries
of the shared list in place — as a pure value, a map that expands an entry
iff its score reaches the threshold. -/
def RetrieverQdrant.expandContextForHighScores (st : QdrantState) (name : String)
    (chunks : List RetrievedChunk) (score_threshold : ℚ) : List RetrievedChunk :=
  let high := chunks.filter (fun c => decide (score_threshold ≤ c.score))
  if high.isEmpty then chunks
  else chunks.map (fun c =>
    if score_threshold ≤ c.score then RetrieverQdrant.expandOne st name c else c)

/-- Query-time embedding models (`embedding_models_manager` used by
`_generate_dense_embedding` / `_generate_sparse_embedding`). -/
structure QueryEmbedder where
  dense : String → List ℚ
  sparse : String → SparseVec

/-- `RetrieverQdrant.retrieve_similar_chunks` (lines 23–91): embed the query,
short-circuit to `[]` when the user's collection does not exist, otherwise
run the hybrid RRF query (`top_k × 2` prefetch and fusion happen inside the
external engine, the parameter `queryEngine`), convert the hits, and expand
context for high scores when `expand_context` is set and anything was
retrieved. -/
def RetrieverQdrant.retrieve_similar_chunks (emb : QueryEmbedder)
    (queryEngine : List ℚ → SparseVec → List QdrantPoint → List (QdrantPoint × ℚ))
    (st : QdrantState) (user_id query : String)
    (expand_context : Bool) (score_threshold : ℚ) : List RetrievedChunk :=
  let denseV := emb.dense query
  let sparseV := emb.sparse query
  let name := generate_user_collection_name user_id
  if st.collectionExists name then
    let hits := queryEngine denseV sparseV (st.points name)
    let retrieved := hits.map (fun h => { convertPointToChunk h.1 with score := h.2 })
    if expand_context && !retrieved.isEmpty then
      RetrieverQdrant.expandContextForHighScores st name retrieved score_threshold
    else retrieved
  else []

theorem forall2_map_right {α β : Type} {R : α → β → Prop} (f : α → β) :
    ∀ l : List α, (∀ c ∈ l, R c (f c)) → List.Forall₂ R l (l.map f) := by
  intro l
  induction l with
  | nil => intro _; exact List.Forall₂.nil
  | cons c l ih =>
    intro hall
    exact List.Forall₂.cons (hall c (List.mem_cons_self c l))
      (ih (fun d hd => hall d (List.mem_cons_of_mem c hd)))

/-- C4: with context expansion, exactly the results whose fused score reaches
the threshold (default 0.7) have the text of the next 3 chunks of the same
document — fetched by sequence-index point-filter lookups, not vector search
— appended to their content separated by blank lines (a high-scoring result
whose document has no stored successor keeps its content unchanged, as the
code appends nothing then), and every result below the threshold is returned
with unmodified content. -/
theorem expansion_threshold_gated (st : QdrantState) (name : String)
    (chunks : List RetrievedChunk) (t : ℚ) :
    RetrieverQdrant.defaultScoreThreshold = 7 / 10 ∧
    List.Forall₂ (fun c cExp =>
        (c.score < t → cExp = c) ∧
        (t ≤ c.score →
          cExp = RetrieverQdrant.expandOne st name c ∧
          (let nbs := RetrieverQdrant.getNeighboringChunks st name
              c.document_id c.chunk_index
           if nbs.isEmpty then cExp.content = c.content
           else cExp.content = c.content ++ "\n\n"
              ++ String.intercalate "\n\n" (nbs.map (fun n => n.content)))))
      chunks (RetrieverQdrant.expandContextForHighScores st name chunks t) := by
  constructor
  · rfl
  · have hpoint : ∀ c : RetrievedChunk,
        (c.score < t → (if t ≤ c.score then RetrieverQdrant.expandOne st name c else c) = c) ∧
        (t ≤ c.score →
          (if t ≤ c.score then RetrieverQdrant.expandOne st name c else c)
              = RetrieverQdrant.expandOne st name c ∧
          (let nbs := RetrieverQdrant.getNeighboringChunks st name
              c.document_id c.chunk_index
           if nbs.isEmpty then
             (if t ≤ c.score then RetrieverQdrant.expandOne st name c else c).content
               = c.content
           else
             (if t ≤ c.score then RetrieverQdrant.expandOne st name c else c).content
               = c.content ++ "\n\n"
                  ++ String.intercalate "\n\n" (nbs.map (fun n => n.content)))) := by
      intro c
      constructor
      · intro hlt
        rw [if_neg (not_le.mpr hlt)]
      · intro hge
        rw [if_pos hge]
        refine ⟨rfl, ?_⟩
        unfold RetrieverQdrant.expandOne
        by_cases hn : (RetrieverQdrant.getNeighboringChunks st name
            c.document_id c.chunk_index).isEmpty
        · simp [hn]
        · simp [hn]
    unfold RetrieverQdrant.expandContextForHighScores
    by_cases hh : (chunks.filter (fun c => decide (t ≤ c.score))).isEmpty
    · rw [if_pos hh]
      have hnone : ∀ c ∈ chunks, ¬ t ≤ c.score := by
        intro c hc hle
        have : c ∈ chunks.filter (fun c => decide (t ≤ c.score)) :=
          List.mem_filter.mpr ⟨hc, by simpa using hle⟩
        rw [List.isEmpty_iff.mp hh] at this
        exact absurd this (List.not_mem_nil c)
      refine List.forall₂_same.mpr ?_
      intro c hc
      exact ⟨fun _ => rfl, fun hge => absurd hge (hnone c hc)⟩
    · rw [if_neg hh]
      exact forall2_map_right _ chunks (fun c _ => hpoint c)

/-- C8: every vector-store operation against a non-existent per-user
collection is non-raising: `search_similar` returns the empty list,
`delete_document_chunks` leaves the store untouched, and a retrieval for a
user whose collection does not exist short-circuits to the empty result
list — whatever query engine, embedder, query, expansion flag and threshold
are in play. -/
theorem missing_collection_operations_are_safe (st : QdrantState)
    (user_id document_id query : String)
    (queryEngine : List QdrantPoint → List (QdrantPoint × ℚ))
    (emb : QueryEmbedder)
    (retrQueryEngine : List ℚ → SparseVec → List QdrantPoint → List (QdrantPoint × ℚ))
    (expand_context : Bool) (score_threshold : ℚ)
    (h : st.collectionExists (generate_user_collection_name user_id) = false) :
    EmbeddingRepositoryQdrant.search_similar queryEngine st user_id = [] ∧
    EmbeddingRepositoryQdrant.delete_document_chunks st user_id document_id = st ∧
    RetrieverQdrant.retrieve_similar_chunks emb retrQueryEngine st user_id query
      expand_context score_threshold = [] := by
  refine ⟨?_, ?_, ?_⟩
  · unfold EmbeddingRepositoryQdrant.search_similar
    dsimp only
    rw [h]
    rfl
  · unfold EmbeddingRepositoryQdrant.delete_document_chunks
    dsimp only
    rw [h]
    rfl
  · unfold RetrieverQdrant.retrieve_similar_chunks
    dsimp only
    rw [h]
    rfl

/-- Witness for C8 at a concrete input: the empty store and user `"u"`. -/
theorem missing_collection_operations_are_safe_witness :
    (QdrantState.collectionExists {} (generate_user_collection_name "u") = false) ∧
    (EmbeddingRepositoryQdrant.search_similar (fun ps => ps.map (fun p => (p, 1)))
        {} "u" = [] ∧
     EmbeddingRepositoryQdrant.delete_document_chunks {} "u" "d" = {} ∧
     RetrieverQdrant.retrieve_similar_chunks
        { dense := fun _ => [0], sparse := fun _ => {} }
        (fun _ _ ps => ps.map (fun p => (p, 1))) {} "u" "hello" true (7 / 10)
       = []) :=
  ⟨by decide,
   missing_collection_operations_are_safe {} "u" "d" "hello"
     (fun ps => ps.map (fun p => (p, 1)))
     { dense := fun _ => [0], sparse := fun _ => {} }
     (fun _ _ ps => ps.map (fun p => (p, 1))) true (7 / 10) (by decide)⟩

/-! ## Upload entry (`upload_document.py`, `execute`, lines 190–269) -/

/-- The `Document` metadata row fields `execute` writes
(`domain/entities.py`); timestamps are omitted (never branched on). -/
structure DocumentRow where
  id : String := ""
  user_id : String := ""
  course_id : String := ""
  filename : String := ""
  storage_path : String := ""
  file_hash : String := ""
  file_size : Nat := 0
  total_pages : Nat := 0
  chunks_count : Nat := 0
  status : String := "pending"
  error_message : Option String := none
deriving DecidableEq, Repr

/-- The persistent state `execute` touches: the relational `documents` table,
the blob storage (stored paths), and the vector store. -/
structure BackendState where
  documents : List DocumentRow := []
  storage : List String := []
  vector : QdrantState := {}
deriving DecidableEq, Repr

/-- `DocumentRepository.get_by_hash(user_id, file_hash)`: first matching row. -/
def getByHash (docs : List DocumentRow) (user_id file_hash : String) :
    Option DocumentRow :=
  docs.find? (fun d => d.user_id == user_id && d.file_hash == file_hash)

/-- `UploadDocument.execute`: compute the content hash (`sha256`, the
parameter `hashFn`); if `get_by_hash` finds a document of this user, raise the
duplicate-content error referencing the existing document BEFORE the storage
upload and before the metadata row is created; otherwise upload the blob,
save the row with status `processing` and start the background pipeline
fire-and-forget — no vector-store write happens before `execute` returns.
`newId` is the fresh `uuid4` of line 207; the default course id is the
literal of line 208. -/
def UploadDocument.execute (hashFn : List Nat → String) (newId : String)
    (st : BackendState) (user_id filename : String) (content : List Nat)
    (course_id : Option String) : Except String DocumentRow × BackendState :=
  let cid := course_id.getD "11111111-1111-1111-1111-111111111111"
  let storage_path := user_id ++ "/" ++ cid ++ "/" ++ newId ++ "_" ++ filename
  let file_hash := hashFn content
  match getByHash st.documents user_id file_hash with
  | some existing =>
    (.error ("Document with the same content already exists (ID: "
        ++ existing.id ++ ")"), st)
  | none =>
    let doc : DocumentRow :=
      { id := newId, user_id := user_id, course_id := cid, filename := filename,
        storage_path := storage_path, file_hash := file_hash,
        file_size := content.length, status := "processing" }
    (.ok doc,
     { st with storage := st.storage ++ [storage_path],
               documents := st.documents ++ [doc] })

/-- C7: for a user without a document of this content hash, the first upload
succeeds, and re-uploading byte-identical content is rejected with a
duplicate-content error referencing the first document's id; the rejection
happens before any write, so the second call returns the post-first-upload
state completely unchanged — no second Document row, no second stored file,
and no vector-store points. -/
theorem duplicate_upload_rejected_before_writes (hashFn : List Nat → String)
    (id1 id2 : String) (st : BackendState) (user filename1 filename2 : String)
    (content : List Nat) (course1 course2 : Option String)
    (hfresh : getByHash st.documents user (hashFn content) = none) :
    ∃ doc st1,
      UploadDocument.execute hashFn id1 st user filename1 content course1
        = (.ok doc, st1) ∧
      doc.id = id1 ∧
      UploadDocument.execute hashFn id2 st1 user filename2 content course2
        = (.error ("Document with the same content already exists (ID: "
            ++ id1 ++ ")"), st1) := by
  have hsecond : ∀ d : DocumentRow, d.user_id = user → d.file_hash = hashFn content →
      getByHash (st.documents ++ [d]) user (hashFn content) = some d := by
    intro d hu hh
    unfold getByHash at hfresh ⊢
    rw [List.find?_append, hfresh]
    simp [hu, hh]
  unfold UploadDocument.execute
  dsimp only
  rw [hfresh]
  refine ⟨_, _, rfl, rfl, ?_⟩
  rw [hsecond _ rfl rfl]

/-- Witness for C7 at a concrete input: empty backend state, a two-byte file,
a hash function summing the bytes. -/
theorem duplicate_upload_rejected_before_writes_witness :
    getByHash ([] : List DocumentRow) "u"
        ((fun c : List Nat => toString c.sum) [1, 2]) = none ∧
    (∃ doc st1,
      UploadDocument.execute (fun c => toString c.sum) "id1"
          {} "u" "a.pdf" [1, 2] none = (.ok doc, st1) ∧
      doc.id = "id1" ∧
      UploadDocument.execute (fun c => toString c.sum) "id2"
          st1 "u" "b.pdf" [1, 2] (some "crs")
        = (.error ("Document with the same content already exists (ID: "
            ++ "id1" ++ ")"), st1)) :=
  ⟨rfl,
   duplicate_upload_rejected_before_writes (fun c => toString c.sum) "id1" "id2"
     {} "u" "a.pdf" "b.pdf" [1, 2] none (some "crs") rfl⟩
